import Mathlib

/-!
Verification of the CreditPath-AI browser client against its specification.

The repository is a JavaScript front-end: `frontend/js/batch.js` (CSV upload,
parsing, batch prediction, CSV export) and a single-prediction script
(`displayResult` / `getRiskInfo`).  The definitions below are a shallow
embedding of that code: JavaScript strings are modelled as `List Char`
(written `Str`), JavaScript numbers as exact rationals `ℚ` extended with
`NaN` / `±Infinity` where the code can produce them, and fallible code as
`Except`.  Floating-point rounding of IEEE doubles is idealised away; none of
the properties below depends on it.
-/

namespace CreditPath

/-- JavaScript strings, modelled as lists of characters. -/
abbrev Str := List Char

/-! ## Result renderer (single-prediction page: `displayResult` / `getRiskInfo`)

`displayResult` computes `probability = Math.round(result.default_probability * 100)`
and passes that integer percentage to `getRiskInfo`. -/

/-- `Math.round`: rounds half toward positive infinity, `⌊x + 1/2⌋`. -/
def jsRound (q : ℚ) : ℤ := ⌊q + 1/2⌋

/-- The record returned by `getRiskInfo` in the single-prediction script. -/
structure RiskInfo where
  level : String
  cssClass : String
  color : String
deriving DecidableEq

/-- `getRiskInfo(probability)` from the single-prediction script: thresholds 60
and 30 applied to the integer percentage. -/
def getRiskInfo (probability : ℤ) : RiskInfo :=
  if probability ≥ 60 then
    { level := "High Risk", cssClass := "risk-high", color := "#ff4757" }
  else if probability ≥ 30 then
    { level := "Medium Risk", cssClass := "risk-medium", color := "#ffa502" }
  else
    { level := "Low Risk", cssClass := "risk-low", color := "#26de81" }

/-- The display tier shown for a prediction result: `displayResult` rounds
`default_probability * 100` to an integer percentage before classifying. -/
def displayTier (default_probability : ℚ) : String :=
  (getRiskInfo (jsRound (default_probability * 100))).level

theorem displayTier_high {p : ℚ} (h : 119/200 ≤ p) : displayTier p = "High Risk" := by
  have h60 : 60 ≤ jsRound (p * 100) := by
    rw [jsRound, Int.le_floor]
    push_cast
    linarith
  rw [displayTier, getRiskInfo, if_pos h60]

theorem displayTier_medium {p : ℚ} (h1 : 59/200 ≤ p) (h2 : p < 119/200) :
    displayTier p = "Medium Risk" := by
  have h60 : ¬ 60 ≤ jsRound (p * 100) := by
    rw [jsRound, Int.le_floor]
    push_cast
    intro hc
    linarith
  have h30 : 30 ≤ jsRound (p * 100) := by
    rw [jsRound, Int.le_floor]
    push_cast
    linarith
  rw [displayTier, getRiskInfo, if_neg h60, if_pos h30]

theorem displayTier_low {p : ℚ} (h : p < 59/200) : displayTier p = "Low Risk" := by
  have h60 : ¬ 60 ≤ jsRound (p * 100) := by
    rw [jsRound, Int.le_floor]
    push_cast
    intro hc
    linarith
  have h30 : ¬ 30 ≤ jsRound (p * 100) := by
    rw [jsRound, Int.le_floor]
    push_cast
    intro hc
    linarith
  rw [displayTier, getRiskInfo, if_neg h60, if_neg h30]

/-- C1 counterexample: the claim says every probability in `[0.30, 0.60)` maps
to the medium tier, but `default_probability = 0.599` is rounded to the integer
percentage `60` first, so the code displays the high tier. -/
theorem c1_counterexample :
    displayTier (599/1000) = "High Risk" ∧
    (3/10 : ℚ) ≤ 599/1000 ∧ (599/1000 : ℚ) < 6/10 ∧
    "High Risk" ≠ "Medium Risk" := by
  refine ⟨?_, by norm_num, by norm_num, by decide⟩
  rw [displayTier]
  norm_num [jsRound]
  rfl

/-- C1 (amended): the display tier is computed from the rounded integer
percentage `Math.round(default_probability * 100)` with closed lower bounds 60
and 30; equivalently the effective probability breakpoints are 0.595 and 0.295,
so 0.82 maps to high, 0.45 to medium, 0.10 to low, and the boundary values
0.30 and 0.60 resolve to medium and high respectively. -/
theorem c1_displayTier_rounded_breakpoints (p : ℚ) :
    (119/200 ≤ p → displayTier p = "High Risk") ∧
    (59/200 ≤ p → p < 119/200 → displayTier p = "Medium Risk") ∧
    (p < 59/200 → displayTier p = "Low Risk") :=
  ⟨fun h => displayTier_high h,
   fun h1 h2 => displayTier_medium h1 h2,
   fun h => displayTier_low h⟩

/-- Witness for C1: the five named probabilities resolve as the amended claim
states. -/
theorem c1_witness :
    displayTier (82/100) = "High Risk" ∧
    displayTier (45/100) = "Medium Risk" ∧
    displayTier (10/100) = "Low Risk" ∧
    displayTier (30/100) = "Medium Risk" ∧
    displayTier (60/100) = "High Risk" :=
  ⟨(c1_displayTier_rounded_breakpoints (82/100)).1 (by norm_num),
   (c1_displayTier_rounded_breakpoints (45/100)).2.1 (by norm_num) (by norm_num),
   (c1_displayTier_rounded_breakpoints (10/100)).2.2 (by norm_num),
   (c1_displayTier_rounded_breakpoints (30/100)).2.1 (by norm_num) (by norm_num),
   (c1_displayTier_rounded_breakpoints (60/100)).1 (by norm_num)⟩

/-! ## String primitives used by `parseCSV` (batch.js)

`String.prototype.trim`, `String.prototype.split(sep)` and the quote-removal
`replace(/['"]/g, '')` are modelled on `List Char`. -/

/-- The newline separator used by `csvText.split('\n')`. -/
def nlChar : Char := '\n'

/-- The comma separator used by `line.split(',')`. -/
def commaChar : Char := ','

/-- The single-quote character. -/
def squoteChar : Char := Char.ofNat 39

/-- JavaScript whitespace as produced by the inputs this client handles
(space, tab, carriage return, newline). -/
def isJsWs (c : Char) : Bool :=
  c == ' ' || c == '\t' || c == '\r' || c == '\n'

/-- `String.prototype.trim`: drop leading and trailing whitespace. -/
def jsTrim (l : Str) : Str :=
  ((l.dropWhile isJsWs).reverse.dropWhile isJsWs).reverse

/-- `String.prototype.split(sep)` for a one-character separator: always
returns at least one (possibly empty) piece; `"".split(sep) = [""]`. -/
def splitOnChar (sep : Char) : Str → List Str
  | [] => [[]]
  | c :: cs =>
    match splitOnChar sep cs with
    | [] => [[]]
    | t :: ts => if c = sep then [] :: t :: ts else (c :: t) :: ts

/-- A quote character (single or double), as matched by the regex `/['"]/`. -/
def isQuote (c : Char) : Bool := c == '"' || c == squoteChar

/-- `v.trim().replace(/['"]/g, '')`: trim, then delete every quote character
(the regex has the global flag, so interior quotes are removed too). -/
def cleanToken (s : Str) : Str :=
  (jsTrim s).filter (fun c => !(isQuote c))

theorem splitOnChar_ne_nil (sep : Char) (l : Str) : splitOnChar sep l ≠ [] := by
  cases l with
  | nil => simp [splitOnChar]
  | cons c cs =>
    rw [splitOnChar]
    cases h : splitOnChar sep cs with
    | nil => simp
    | cons t ts =>
      by_cases hc : c = sep <;> simp [hc]

/-- Splitting a separator-free string yields the single piece itself. -/
theorem splitOnChar_of_not_mem {sep : Char} {a : Str} (h : sep ∉ a) :
    splitOnChar sep a = [a] := by
  induction a with
  | nil => rfl
  | cons c cs ih =>
    have hc : c ≠ sep := fun hc => h (hc ▸ List.mem_cons_self c cs)
    have hcs : sep ∉ cs := fun hm => h (List.mem_cons_of_mem c hm)
    rw [splitOnChar, ih hcs]
    simp [hc]

/-- Splitting peels off a separator-free prefix before the first separator. -/
theorem splitOnChar_append {sep : Char} {a : Str} (b : Str) (h : sep ∉ a) :
    splitOnChar sep (a ++ sep :: b) = a :: splitOnChar sep b := by
  induction a with
  | nil =>
    rw [List.nil_append, splitOnChar]
    cases hb : splitOnChar sep b with
    | nil => exact absurd hb (splitOnChar_ne_nil sep b)
    | cons t ts => simp
  | cons c cs ih =>
    have hc : c ≠ sep := fun hc => h (hc ▸ List.mem_cons_self c cs)
    have hcs : sep ∉ cs := fun hm => h (List.mem_cons_of_mem c hm)
    rw [List.cons_append, splitOnChar, ih hcs]
    simp [hc]

/-- C9 counterexample: the claim says interior quote characters are preserved,
but `replace(/['"]/g, '')` is global, so the token `a"b` loses its interior
quote and becomes `ab`. -/
theorem c9_counterexample :
    cleanToken ("a\"b".toList) ≠ "a\"b".toList ∧
    cleanToken ("a\"b".toList) = "ab".toList := by
  constructor <;> decide

/-- C9 (amended): quote handling removes every quote character — leading,
trailing or interior — from the trimmed token; a token whose trimmed form
contains no quote character passes through unchanged (and there is no
embedded-delimiter or escaped-quote processing). -/
theorem c9_quote_stripping (s : Str) :
    (∀ c ∈ cleanToken s, isQuote c = false) ∧
    ((∀ c ∈ jsTrim s, isQuote c = false) → cleanToken s = jsTrim s) := by
  constructor
  · intro c hc
    have := (List.mem_filter.mp hc).2
    simpa using this
  · intro h
    rw [cleanToken, List.filter_eq_self]
    intro c hc
    simp [h c hc]

/-- Witness for C9: a quote-free token such as `" RENT "` is only trimmed. -/
theorem c9_witness :
    cleanToken (" RENT ".toList) = jsTrim (" RENT ".toList) :=
  (c9_quote_stripping (" RENT ".toList)).2 (by decide)

/-! ## JavaScript numbers and `parseFloat`

`parseCSV` coerces the seven numeric columns with `parseFloat(value) || 0`.
JavaScript numbers are modelled as exact rationals extended with `NaN` and
`±Infinity` (the values `parseFloat` can produce); IEEE-754 rounding is
idealised away, which none of the claims depends on. -/

/-- A JavaScript number as produced by `parseFloat`. -/
inductive JsNum where
  | finite (q : ℚ)
  | nan
  | inf
  | negInf
deriving DecidableEq

/-- Whether a JavaScript number is finite (neither `NaN` nor `±Infinity`). -/
def JsNum.isFinite : JsNum → Bool
  | .finite _ => true
  | _ => false

/-- A decimal digit `0`–`9`. -/
def isDigitCh (c : Char) : Bool := 48 ≤ c.toNat && c.toNat ≤ 57

/-- Numeric value of a list of decimal digits (0 for the empty list). -/
def digitsToNat (ds : Str) : ℕ := ds.foldl (fun acc c => 10 * acc + (c.toNat - 48)) 0

/-- Parse an optional exponent part `e`/`E` with optional sign; an absent or
malformed exponent contributes the factor `10 ^ 0` (JavaScript's longest-match
rule stops before an `e` that is not followed by digits). -/
def parseExponent (l : Str) : ℤ :=
  match l with
  | c :: rest =>
    if c = 'e' ∨ c = 'E' then
      match rest with
      | s :: rest2 =>
        if s = '+' then
          (if rest2.takeWhile isDigitCh = [] then 0 else (digitsToNat (rest2.takeWhile isDigitCh) : ℤ))
        else if s = '-' then
          (if rest2.takeWhile isDigitCh = [] then 0 else -(digitsToNat (rest2.takeWhile isDigitCh) : ℤ))
        else
          (if rest.takeWhile isDigitCh = [] then 0 else (digitsToNat (rest.takeWhile isDigitCh) : ℤ))
      | [] => 0
    else 0
  | [] => 0

/-- `10 ^ n` as a rational. -/
def pow10 (n : ℕ) : ℚ := ((10 ^ n : ℕ) : ℚ)

/-- The scale factor `10 ^ exponent` contributed by an optional exponent part. -/
def expFactor (rest : Str) : ℚ :=
  let e := parseExponent rest
  if 0 ≤ e then pow10 e.toNat else 1 / pow10 (-e).toNat

/-- Parse an unsigned decimal literal (digits, optional fraction, optional
exponent) at the head of the string, ignoring trailing garbage; `none` when no
digits are present before or after the decimal point. -/
def parseDec (l : Str) : Option ℚ :=
  let intDs := l.takeWhile isDigitCh
  match l.dropWhile isDigitCh with
  | c :: r2 =>
    if c = '.' then
      let fracDs := r2.takeWhile isDigitCh
      if intDs = [] ∧ fracDs = [] then none
      else some
        (((digitsToNat intDs : ℚ) + (digitsToNat fracDs : ℚ) / pow10 fracDs.length)
          * expFactor (r2.dropWhile isDigitCh))
    else if intDs = [] then none
    else some ((digitsToNat intDs : ℚ) * expFactor (c :: r2))
  | [] => if intDs = [] then none else some (digitsToNat intDs : ℚ)

/-- Whether the string starts with the literal `Infinity`. -/
def isInfinityLit (l : Str) : Bool := List.isPrefixOf ("Infinity".toList) l

/-- JavaScript `parseFloat`: skip leading whitespace, read an optional sign,
then the longest `Infinity` or decimal-literal prefix; `NaN` when none. -/
def jsParseFloat (s : Str) : JsNum :=
  let t := s.dropWhile isJsWs
  match t with
  | c :: r =>
    if c = '-' then
      if isInfinityLit r then .negInf
      else match parseDec r with
        | some q => .finite (-q)
        | none => .nan
    else if c = '+' then
      if isInfinityLit r then .inf
      else match parseDec r with
        | some q => .finite q
        | none => .nan
    else
      if isInfinityLit t then .inf
      else match parseDec t with
        | some q => .finite q
        | none => .nan
  | [] => .nan

/-- `parseFloat` applied to a possibly-absent value: `values[index]` is
`undefined` past the end of a short row, and `parseFloat(undefined)` is `NaN`. -/
def jsParseFloatOpt (v : Option Str) : JsNum :=
  match v with
  | some s => jsParseFloat s
  | none => .nan

/-- Whether a JavaScript number is falsy (`NaN`, `0`, `-0`). -/
def JsNum.isFalsy : JsNum → Bool
  | .finite q => q = 0
  | .nan => true
  | _ => false

/-- The `|| 0` fallback: a falsy parse result becomes `0`. -/
def orZero (n : JsNum) : JsNum := if n.isFalsy then .finite 0 else n

/-- A field value of a parsed borrower object: number, string, or the
JavaScript `undefined` produced by indexing past a short row. -/
inductive JsValue where
  | num (n : JsNum)
  | str (s : Str)
  | undefined
deriving DecidableEq

/-- The seven columns converted with `parseFloat(value) || 0` in `parseCSV`. -/
def numericFields : List Str :=
  [ "person_age".toList, "person_income".toList, "person_emp_exp".toList,
    "loan_amnt".toList, "loan_int_rate".toList, "credit_score".toList,
    "cb_person_cred_hist_length".toList ]

/-- Conversion of one cell: numeric columns go through `parseFloat(value) || 0`,
other columns store the (possibly `undefined`) cell verbatim. -/
def convertField (header : Str) (v : Option Str) : JsValue :=
  if header ∈ numericFields then
    .num (orZero (jsParseFloatOpt v))
  else
    match v with
    | some s => .str s
    | none => .undefined

/-- C4 counterexample: the claim says no non-finite value is ever stored in a
numeric field, but the cell `Infinity` parses to a truthy non-finite number,
so `parseFloat(value) || 0` stores `Infinity` in `person_age`. -/
theorem c4_counterexample :
    convertField ("person_age".toList) (some ("Infinity".toList)) = JsValue.num JsNum.inf ∧
    JsNum.inf.isFinite = false := by
  constructor <;> decide

/-- C4 (amended): a cell that fails numeric parsing silently resolves to zero
rather than raising an error, and the stored number is finite unless
`parseFloat` returns `±Infinity` (which happens exactly for cells whose
numeric prefix is a signed `Infinity` literal). -/
theorem c4_numeric_coercion (header : Str) (v : Option Str) (hnum : header ∈ numericFields) :
    (jsParseFloatOpt v = .nan → convertField header v = .num (.finite 0)) ∧
    (jsParseFloatOpt v ≠ .inf → jsParseFloatOpt v ≠ .negInf →
      ∃ q : ℚ, convertField header v = .num (.finite q)) := by
  constructor
  · intro hn
    rw [convertField.eq_def, if_pos hnum, hn]
    rfl
  · intro hi hni
    rw [convertField.eq_def, if_pos hnum]
    cases hp : jsParseFloatOpt v with
    | finite q =>
      by_cases hq : q = 0
      · exact ⟨0, by rw [orZero, hq]; rfl⟩
      · exact ⟨q, by rw [orZero]; simp [JsNum.isFalsy, hq]⟩
    | nan => exact ⟨0, rfl⟩
    | inf => exact absurd hp hi
    | negInf => exact absurd hp hni

/-- Witness for C4: the non-numeric cell `N/A` is stored as the number `0`. -/
theorem c4_witness :
    convertField ("person_income".toList) (some ("N/A".toList)) = JsValue.num (JsNum.finite 0) :=
  (c4_numeric_coercion ("person_income".toList) (some ("N/A".toList)) (by decide)).1 (by decide)

/-! ## CSV decoding (`parseCSV` in batch.js) -/

/-- A parsed borrower object: the fields assigned by `headers.forEach`, one per
header column, in header order (later duplicate headers overwrite earlier ones
in JavaScript; the association list keeps every assignment in order). -/
abbrev BorrowerRecord := List (Str × JsValue)

/-- The ten required columns checked against the header row. -/
def requiredFields : List Str :=
  [ "person_age".toList, "person_income".toList, "person_emp_exp".toList,
    "person_home_ownership".toList, "loan_amnt".toList, "loan_int_rate".toList,
    "loan_intent".toList, "credit_score".toList,
    "cb_person_cred_hist_length".toList, "previous_loan_defaults_on_file".toList ]

/-- The errors `parseCSV` can throw. -/
inductive CsvError where
  | tooFewLines
  | missingColumns (missing : List Str)
deriving DecidableEq

/-- The `headers.forEach((header, index) => ...)` loop of `parseCSV`: assign
`values[index]` (possibly `undefined`) to each header column in turn. -/
def parseRowAux (values : List Str) : ℕ → List Str → BorrowerRecord
  | _, [] => []
  | index, header :: rest =>
    (header, convertField header (values.get? index)) :: parseRowAux values (index + 1) rest

/-- One data row: split on commas, trim and unquote each cell, then assign
`values[index]` (possibly `undefined`) to each header column. -/
def parseRow (headers : List Str) (line : Str) : BorrowerRecord :=
  parseRowAux ((splitOnChar commaChar line).map cleanToken) 0 headers

/-- The data-row loop of `parseCSV`: skip lines that are blank after trimming,
parse every other line in file order. -/
def parseRows (headers : List Str) : List Str → List BorrowerRecord
  | [] => []
  | l :: ls =>
    if jsTrim l = [] then parseRows headers ls
    else parseRow headers l :: parseRows headers ls

/-- `parseCSV` from batch.js: trim the text, split into lines, require at
least two lines, validate the ten required header columns, then parse every
non-blank data row. -/
def parseCSV (csvText : Str) : Except CsvError (List BorrowerRecord) :=
  match splitOnChar nlChar (jsTrim csvText) with
  | headerLine :: d :: ds =>
    let headers := (splitOnChar commaChar headerLine).map cleanToken
    let missing := requiredFields.filter (fun f => decide (f ∉ headers))
    if missing.length > 0 then .error (.missingColumns missing)
    else .ok (parseRows headers (d :: ds))
  | _ => .error .tooFewLines

instance : DecidableEq (Except CsvError (List BorrowerRecord)) := fun a b =>
  match a, b with
  | .ok x, .ok y =>
    if h : x = y then isTrue (by rw [h])
    else isFalse (fun hc => h (by injection hc))
  | .error x, .error y =>
    if h : x = y then isTrue (by rw [h])
    else isFalse (fun hc => h (by injection hc))
  | .ok _, .error _ => isFalse (fun hc => Except.noConfusion hc)
  | .error _, .ok _ => isFalse (fun hc => Except.noConfusion hc)

/-- The blank-line-skipping loop equals a filter of the non-blank lines
followed by a map, so records come one per non-blank row, in file order. -/
theorem parseRows_eq_filter_map (headers : List Str) (ls : List Str) :
    parseRows headers ls
      = (ls.filter (fun l => decide (jsTrim l ≠ []))).map (parseRow headers) := by
  induction ls with
  | nil => rfl
  | cons l ls ih =>
    by_cases hl : jsTrim l = []
    · rw [parseRows, if_pos hl, ih, List.filter_cons]
      simp [hl]
    · rw [parseRows, if_neg hl, ih, List.filter_cons]
      simp [hl]

/-- C8: whenever the trimmed CSV text splits into fewer than two lines,
decoding fails with the malformed-input error and produces no record. -/
theorem c8_too_few_lines (t : Str)
    (h : (splitOnChar nlChar (jsTrim t)).length < 2) :
    parseCSV t = .error .tooFewLines := by
  rw [parseCSV.eq_def]
  cases hs : splitOnChar nlChar (jsTrim t) with
  | nil => rfl
  | cons a rest =>
    cases rest with
    | nil => rfl
    | cons b rest2 =>
      rw [hs] at h
      exact absurd h (by simp)

/-- Witness for C8: a header-only file (one line) is rejected as malformed. -/
theorem c8_witness :
    (splitOnChar nlChar (jsTrim ("person_age,person_income".toList))).length < 2 ∧
    parseCSV ("person_age,person_income".toList) = .error .tooFewLines :=
  ⟨by decide, c8_too_few_lines ("person_age,person_income".toList) (by decide)⟩

/-- C2: with at least one data line present, header validation passes exactly
when every required column occurs among the trimmed, unquoted header tokens,
and otherwise decoding fails with an error carrying exactly the required
columns that are absent. -/
theorem c2_header_validation (t headerLine : Str) (dataLines : List Str)
    (headers missing : List Str)
    (hsplit : splitOnChar nlChar (jsTrim t) = headerLine :: dataLines)
    (hne : dataLines ≠ [])
    (hheaders : headers = (splitOnChar commaChar headerLine).map cleanToken)
    (hmissing : missing = requiredFields.filter (fun f => decide (f ∉ headers))) :
    ((∀ f ∈ requiredFields, f ∈ headers) ↔ missing = []) ∧
    (missing = [] → parseCSV t = .ok (parseRows headers dataLines)) ∧
    (missing ≠ [] → parseCSV t = .error (.missingColumns missing)) := by
  subst hheaders hmissing
  cases dataLines with
  | nil => exact absurd rfl hne
  | cons d ds =>
    refine ⟨?_, ?_, ?_⟩
    · rw [List.filter_eq_nil_iff]
      constructor
      · intro h f hf
        simp [h f hf]
      · intro h f hf
        have := h f hf
        simpa using this
    · intro hm
      simp only [parseCSV.eq_def, hsplit]
      rw [hm]
      simp
    · intro hm
      have hp : 0 < (requiredFields.filter
          (fun f => decide (f ∉ (splitOnChar commaChar headerLine).map cleanToken))).length :=
        List.length_pos.mpr hm
      simp only [parseCSV.eq_def, hsplit]
      rw [if_pos hp]

set_option maxRecDepth 40000 in
/-- Witness for C2: a reordered header with all ten columns passes validation,
and dropping `loan_intent` and `credit_score` fails naming exactly those two. -/
theorem c2_witness :
    (parseCSV (("loan_amnt,person_age,person_income,person_emp_exp," ++
        "person_home_ownership,loan_int_rate,loan_intent,credit_score," ++
        "cb_person_cred_hist_length,previous_loan_defaults_on_file\n" ++
        "150000,30,500000,5,RENT,10.5,EDUCATION,650,8,No").toList)).isOk = true ∧
    parseCSV (("person_age,person_income,person_emp_exp,person_home_ownership," ++
        "loan_amnt,loan_int_rate,cb_person_cred_hist_length," ++
        "previous_loan_defaults_on_file\n1,2,3,OWN,4,5,6,No").toList)
      = .error (.missingColumns ["loan_intent".toList, "credit_score".toList]) := by
  have h1 := c2_header_validation
    (("loan_amnt,person_age,person_income,person_emp_exp," ++
      "person_home_ownership,loan_int_rate,loan_intent,credit_score," ++
      "cb_person_cred_hist_length,previous_loan_defaults_on_file\n" ++
      "150000,30,500000,5,RENT,10.5,EDUCATION,650,8,No").toList)
    (("loan_amnt,person_age,person_income,person_emp_exp," ++
      "person_home_ownership,loan_int_rate,loan_intent,credit_score," ++
      "cb_person_cred_hist_length,previous_loan_defaults_on_file").toList)
    [("150000,30,500000,5,RENT,10.5,EDUCATION,650,8,No").toList] _ []
    (by decide) (by decide) rfl (by decide)
  have h2 := c2_header_validation
    (("person_age,person_income,person_emp_exp,person_home_ownership," ++
      "loan_amnt,loan_int_rate,cb_person_cred_hist_length," ++
      "previous_loan_defaults_on_file\n1,2,3,OWN,4,5,6,No").toList)
    (("person_age,person_income,person_emp_exp,person_home_ownership," ++
      "loan_amnt,loan_int_rate,cb_person_cred_hist_length," ++
      "previous_loan_defaults_on_file").toList)
    [("1,2,3,OWN,4,5,6,No").toList] _
    ["loan_intent".toList, "credit_score".toList]
    (by decide) (by decide) rfl (by decide)
  constructor
  · rw [h1.2.1 rfl]
    rfl
  · exact h2.2.2 (by decide)

/-- C3: successful decoding returns exactly one `BorrowerRecord` per non-blank
data row, in file order (the records are the non-blank rows, parsed, in
sequence), and in particular exactly N records for N non-blank rows. -/
theorem c3_one_record_per_row (t : Str) (recs : List BorrowerRecord)
    (h : parseCSV t = .ok recs) :
    ∃ headerLine dataLines,
      splitOnChar nlChar (jsTrim t) = headerLine :: dataLines ∧
      recs = (dataLines.filter (fun l => decide (jsTrim l ≠ []))).map
        (parseRow ((splitOnChar commaChar headerLine).map cleanToken)) ∧
      recs.length = (dataLines.filter (fun l => decide (jsTrim l ≠ []))).length := by
  cases hs : splitOnChar nlChar (jsTrim t) with
  | nil =>
    simp only [parseCSV.eq_def, hs] at h
    exact Except.noConfusion h
  | cons a rest =>
    cases rest with
    | nil =>
      simp only [parseCSV.eq_def, hs] at h
      exact Except.noConfusion h
    | cons d ds =>
      simp only [parseCSV.eq_def, hs] at h
      refine ⟨a, d :: ds, rfl, ?_⟩
      split at h
      · exact absurd h (by simp)
      · have hrecs : parseRows ((splitOnChar commaChar a).map cleanToken) (d :: ds) = recs := by
          injection h
        rw [← hrecs, parseRows_eq_filter_map]
        exact ⟨rfl, by rw [List.length_map]⟩

set_option maxRecDepth 100000 in
/-- Witness for C3: a valid header, one blank line (skipped) and one data row
decode to exactly one record, in file order. -/
theorem c3_witness :
    ∃ headerLine dataLines,
      splitOnChar nlChar (jsTrim
        (("person_age,person_income,person_emp_exp,person_home_ownership," ++
          "loan_amnt,loan_int_rate,loan_intent,credit_score," ++
          "cb_person_cred_hist_length,previous_loan_defaults_on_file\n\n" ++
          "30,500000,5,RENT,150000,11,EDUCATION,650,8,No").toList))
        = headerLine :: dataLines ∧
      ([[ ("person_age".toList, JsValue.num (JsNum.finite 30)),
          ("person_income".toList, JsValue.num (JsNum.finite 500000)),
          ("person_emp_exp".toList, JsValue.num (JsNum.finite 5)),
          ("person_home_ownership".toList, JsValue.str ("RENT".toList)),
          ("loan_amnt".toList, JsValue.num (JsNum.finite 150000)),
          ("loan_int_rate".toList, JsValue.num (JsNum.finite 11)),
          ("loan_intent".toList, JsValue.str ("EDUCATION".toList)),
          ("credit_score".toList, JsValue.num (JsNum.finite 650)),
          ("cb_person_cred_hist_length".toList, JsValue.num (JsNum.finite 8)),
          ("previous_loan_defaults_on_file".toList, JsValue.str ("No".toList)) ]]
        : List BorrowerRecord)
        = (dataLines.filter (fun l => decide (jsTrim l ≠ []))).map
            (parseRow ((splitOnChar commaChar headerLine).map cleanToken)) ∧
      ([[ ("person_age".toList, JsValue.num (JsNum.finite 30)),
          ("person_income".toList, JsValue.num (JsNum.finite 500000)),
          ("person_emp_exp".toList, JsValue.num (JsNum.finite 5)),
          ("person_home_ownership".toList, JsValue.str ("RENT".toList)),
          ("loan_amnt".toList, JsValue.num (JsNum.finite 150000)),
          ("loan_int_rate".toList, JsValue.num (JsNum.finite 11)),
          ("loan_intent".toList, JsValue.str ("EDUCATION".toList)),
          ("credit_score".toList, JsValue.num (JsNum.finite 650)),
          ("cb_person_cred_hist_length".toList, JsValue.num (JsNum.finite 8)),
          ("previous_loan_defaults_on_file".toList, JsValue.str ("No".toList)) ]]
        : List BorrowerRecord).length
        = (dataLines.filter (fun l => decide (jsTrim l ≠ []))).length :=
  c3_one_record_per_row _ _ (by decide)

/-- C10: decoding is total on short rows: `parseRow` always yields one field
per header column, and every column whose index lies past the end of the
row's value list gets `0` when numeric and `undefined` otherwise. -/
theorem parseRowAux_length (values : List Str) (idx : ℕ) (headers : List Str) :
    (parseRowAux values idx headers).length = headers.length := by
  induction headers generalizing idx with
  | nil => rfl
  | cons h hs ih =>
    rw [parseRowAux]
    simp [ih]

theorem parseRowAux_get (values : List Str) (headers : List Str) (idx i : ℕ) :
    (parseRowAux values idx headers).get? i
      = (headers.get? i).map (fun h => (h, convertField h (values.get? (idx + i)))) := by
  induction headers generalizing idx i with
  | nil => simp [parseRowAux]
  | cons h hs ih =>
    cases i with
    | zero => simp [parseRowAux]
    | succ n =>
      rw [parseRowAux]
      show (parseRowAux values (idx + 1) hs).get? n
        = (hs.get? n).map (fun h => (h, convertField h (values.get? (idx + (n + 1)))))
      rw [ih]
      have harith : idx + (n + 1) = idx + 1 + n := by omega
      rw [harith]

theorem c10_short_row_defaults (headers : List Str) (line : Str) :
    (parseRow headers line).length = headers.length ∧
    (∀ i hname, ((splitOnChar commaChar line).map cleanToken).length ≤ i →
      headers.get? i = some hname →
      (parseRow headers line).get? i =
        some (hname,
          if hname ∈ numericFields then JsValue.num (JsNum.finite 0) else JsValue.undefined)) := by
  constructor
  · rw [parseRow]
    exact parseRowAux_length _ _ _
  · intro i hname hge hg
    rw [parseRow, parseRowAux_get, hg]
    have hv : ((splitOnChar commaChar line).map cleanToken).get? (0 + i) = none := by
      rw [List.get?_eq_none]
      omega
    rw [Option.map_some', hv]
    rw [convertField.eq_def]
    by_cases hn : hname ∈ numericFields
    · rw [if_pos hn, if_pos hn]
      rfl
    · rw [if_neg hn, if_neg hn]

/-- Witness for C10: against the two-column header `loan_intent,person_age`
the one-cell row `CAR` still yields a two-field record whose out-of-range
numeric field is `0`; swapping the header shows the categorical field is left
`undefined`. -/
theorem c10_witness :
    (parseRow ["loan_intent".toList, "person_age".toList] ("CAR".toList)).length = 2 ∧
    (parseRow ["loan_intent".toList, "person_age".toList] ("CAR".toList)).get? 1
      = some ("person_age".toList, JsValue.num (JsNum.finite 0)) ∧
    (parseRow ["person_age".toList, "loan_intent".toList] ("30".toList)).get? 1
      = some ("loan_intent".toList, JsValue.undefined) := by
  refine ⟨(c10_short_row_defaults ["loan_intent".toList, "person_age".toList]
      ("CAR".toList)).1, ?_, ?_⟩
  · have h := (c10_short_row_defaults ["loan_intent".toList, "person_age".toList]
      ("CAR".toList)).2 1 ("person_age".toList) (by decide) (by decide)
    rw [if_pos (by decide : ("person_age".toList ∈ numericFields))] at h
    exact h
  · have h := (c10_short_row_defaults ["person_age".toList, "loan_intent".toList]
      ("30".toList)).2 1 ("loan_intent".toList) (by decide) (by decide)
    rw [if_neg (by decide : ¬ ("loan_intent".toList ∈ numericFields))] at h
    exact h

/-! ## Batch submission (`processBatch` in batch.js) -/

/-- The HTTP request `processBatch` issues when it reaches the network layer:
a POST to the batch endpoint whose JSON body is the borrower array. -/
structure BatchRequest where
  body : List BorrowerRecord

/-- The failure conditions of `processBatch` before any response handling. -/
inductive BatchFailure where
  | csvError (e : CsvError)
  | noData

/-- The guard between parsing and the network call in `processBatch`
(`if (borrowers.length === 0) throw new Error('No valid data found...')`).
An `ok` result means `fetch` is invoked with exactly this body; an `error`
result short-circuits to the catch block, so no request is sent. -/
def submitBorrowers (borrowers : List BorrowerRecord) : Except BatchFailure BatchRequest :=
  if borrowers.length = 0 then .error .noData
  else .ok { body := borrowers }

/-- The client-side pipeline of `processBatch` up to the network call. -/
def processBatchPipeline (csvText : Str) : Except BatchFailure BatchRequest :=
  match parseCSV csvText with
  | .error e => .error (.csvError e)
  | .ok borrowers => submitBorrowers borrowers

/-- C6: an empty parsed borrower list fails with the no-data condition, and no
request value is produced, so the network layer is never invoked for it. -/
theorem c6_empty_input_no_request :
    submitBorrowers [] = .error .noData ∧
    ∀ r : BatchRequest, submitBorrowers [] ≠ .ok r := by
  constructor
  · rfl
  · intro r
    simp [submitBorrowers]

/-! ## Server-error surfacing (`processBatch` response handling and `showError`) -/

/-- The message of the `Error` thrown for a non-2xx response: the `message`
field of the JSON error body when present and non-empty (an empty string is
falsy, so it falls through `||`), otherwise the generic status-code message
`Server error: <status>`. -/
def responseErrorMessage (status : ℕ) (jsonMessage : Option String) : String :=
  match jsonMessage with
  | some m => if m = "" then "Server error: " ++ toString status else m
  | none => "Server error: " ++ toString status

/-- The text written into the user-visible `errorMessage` region when the
batch request fails: `showError` displays its argument verbatim, and the catch
block passes the thrown message behind the fixed prefix. -/
def batchDisplayedError (status : ℕ) (jsonMessage : Option String) : String :=
  "Failed to process batch: " ++ responseErrorMessage status jsonMessage

/-- C7 counterexample: for status 500 with JSON body message
`model unavailable`, the error region shows the prefixed text
`Failed to process batch: model unavailable`, which is not exactly the
server-supplied message. -/
theorem c7_counterexample :
    batchDisplayedError 500 (some "model unavailable")
      = "Failed to process batch: model unavailable" ∧
    batchDisplayedError 500 (some "model unavailable") ≠ "model unavailable" := by
  constructor
  · rfl
  · decide

/-- C7 (amended): the server-supplied message is surfaced verbatim, but as the
suffix of the displayed text after the fixed prefix `Failed to process batch: `;
when no JSON message is present, the generic `Server error: <status>` message
appears in the same position. -/
theorem c7_server_message_surfaced (status : ℕ) (m : String) (hm : m ≠ "") :
    batchDisplayedError status (some m) = "Failed to process batch: " ++ m ∧
    batchDisplayedError status none
      = "Failed to process batch: " ++ ("Server error: " ++ toString status) := by
  constructor
  · simp only [batchDisplayedError, responseErrorMessage]
    rw [if_neg hm]
  · rfl

/-- Witness for C7: the 500 / `model unavailable` response of the claim. -/
theorem c7_witness :
    batchDisplayedError 500 (some "model unavailable")
      = "Failed to process batch: " ++ "model unavailable" :=
  (c7_server_message_surfaced 500 "model unavailable" (by decide)).1

/-! ## CSV export (`downloadResults` in batch.js) -/

/-- Decimal digits of a natural number, most significant first; the fuel
argument only bounds the recursion depth. -/
def natDigitsAux : ℕ → ℕ → Str
  | 0, _ => []
  | fuel + 1, n =>
    if n < 10 then [Char.ofNat (48 + n)]
    else natDigitsAux fuel (n / 10) ++ [Char.ofNat (48 + n % 10)]

/-- Decimal representation of a natural number, as JavaScript renders an
integer into a template string. -/
def natDigits (n : ℕ) : Str := natDigitsAux (n + 1) n

/-- Left-pad a two-digit fraction part with `0`. -/
def padTwo (k : ℕ) : Str := if k < 10 then '0' :: natDigits k else natDigits k

/-- `x.toFixed(2)`: round to the nearest hundredth (ties toward the larger
value, per the ECMAScript rule) and render with exactly two fraction digits. -/
def toFixed2 (x : ℚ) : Str :=
  (if ⌊x * 100 + 1/2⌋ < 0 then ['-'] else []) ++
    natDigits ((⌊x * 100 + 1/2⌋).natAbs / 100) ++
    '.' :: padTwo ((⌊x * 100 + 1/2⌋).natAbs % 100)

/-- The `borrower_summary` echo of a prediction response, in the rendered form
the template literal interpolates. -/
structure BorrowerSummary where
  age : Str
  annual_income : Str
  loan_amount : Str
  credit_score : Str
deriving DecidableEq

/-- The recommendation object of a prediction response (the fields exported by
`downloadResults`). -/
structure Recommendation where
  action : Str
  priority : Str
deriving DecidableEq

/-- One prediction result, as consumed by `downloadResults`. -/
structure PredictionResult where
  default_probability : ℚ
  risk_level : Str
  recommendation : Recommendation
  borrower_summary : BorrowerSummary
deriving DecidableEq

/-- The characters one iteration of the export loop appends, before the
terminating newline: 1-based index, four summary columns, the probability as
a two-decimal percentage, then the three double-quoted text columns. -/
def resultRowBody (index : ℕ) (pred : PredictionResult) : Str :=
  natDigits (index + 1) ++ commaChar ::
  (pred.borrower_summary.age ++ commaChar ::
  (pred.borrower_summary.annual_income ++ commaChar ::
  (pred.borrower_summary.loan_amount ++ commaChar ::
  (pred.borrower_summary.credit_score ++ commaChar ::
  (toFixed2 (pred.default_probability * 100) ++ '%' :: commaChar :: '"' ::
  (pred.risk_level ++ '"' :: commaChar :: '"' ::
  (pred.recommendation.action ++ '"' :: commaChar :: '"' ::
  (pred.recommendation.priority ++ ['"']))))))))

/-- One exported row, newline-terminated as in the code. -/
def resultRow (index : ℕ) (pred : PredictionResult) : Str :=
  resultRowBody index pred ++ [nlChar]

/-- The fixed header line of the exported CSV, without its newline. -/
def resultsHeaderBody : Str :=
  ("Index,Age,Income,Loan Amount,Credit Score,Default Probability," ++
    "Risk Level,Recommendation,Action Priority").toList

/-- The `resultsData.forEach((pred, index) => ...)` loop: append the rows in
input order with a running index. -/
def downloadRows : ℕ → List PredictionResult → Str
  | _, [] => []
  | index, p :: ps => resultRow index p ++ downloadRows (index + 1) ps

/-- `downloadResults`: the header line then one newline-terminated row per
prediction, in input order. -/
def downloadCsv (results : List PredictionResult) : Str :=
  (resultsHeaderBody ++ [nlChar]) ++ downloadRows 0 results

/-- The bodies (without newlines) of the exported rows, with a running index. -/
def rowBodies : ℕ → List PredictionResult → List Str
  | _, [] => []
  | index, p :: ps => resultRowBody index p :: rowBodies (index + 1) ps

/-- Well-formedness of one prediction for export: none of its rendered text
fields contains a newline (a newline inside a field would change the exported
line count; every actual server response satisfies this). -/
abbrev resultClean (p : PredictionResult) : Prop :=
  nlChar ∉ p.borrower_summary.age ∧
  nlChar ∉ p.borrower_summary.annual_income ∧
  nlChar ∉ p.borrower_summary.loan_amount ∧
  nlChar ∉ p.borrower_summary.credit_score ∧
  nlChar ∉ p.risk_level ∧
  nlChar ∉ p.recommendation.action ∧
  nlChar ∉ p.recommendation.priority

theorem not_mem_append_of {α} {a : α} {s t : List α} (hs : a ∉ s) (ht : a ∉ t) :
    a ∉ s ++ t := by
  simp [List.mem_append, hs, ht]

theorem not_mem_cons_of {α} {a b : α} {t : List α} (h1 : a ≠ b) (h2 : a ∉ t) :
    a ∉ b :: t := by
  simp [List.mem_cons, h1, h2]

/-- Every character emitted by `natDigitsAux` is a decimal digit, hence
neither a newline nor a comma. -/
theorem natDigitsAux_chars (fuel : ℕ) :
    ∀ n, ∀ c ∈ natDigitsAux fuel n, c ≠ nlChar ∧ c ≠ commaChar := by
  induction fuel with
  | zero =>
    intro n c hc
    exact absurd hc (by simp [natDigitsAux])
  | succ fuel ih =>
    intro n c hc
    rw [natDigitsAux] at hc
    by_cases h : n < 10
    · rw [if_pos h] at hc
      have hceq : c = Char.ofNat (48 + n) := List.mem_singleton.mp hc
      subst hceq
      interval_cases n <;> exact ⟨by decide, by decide⟩
    · rw [if_neg h] at hc
      rcases List.mem_append.mp hc with h1 | h1
      · exact ih _ c h1
      · have hceq : c = Char.ofNat (48 + n % 10) := List.mem_singleton.mp h1
        subst hceq
        have hlt : n % 10 < 10 := Nat.mod_lt _ (by norm_num)
        interval_cases h10 : n % 10 <;> exact ⟨by decide, by decide⟩

theorem natDigits_no_nl (n : ℕ) : nlChar ∉ natDigits n :=
  fun hc => ((natDigitsAux_chars (n + 1) n nlChar hc).1) rfl

theorem natDigits_no_comma (n : ℕ) : commaChar ∉ natDigits n :=
  fun hc => ((natDigitsAux_chars (n + 1) n commaChar hc).2) rfl

theorem padTwo_no_nl (k : ℕ) : nlChar ∉ padTwo k := by
  rw [padTwo]
  by_cases h : k < 10
  · rw [if_pos h]
    exact not_mem_cons_of (by decide) (natDigits_no_nl k)
  · rw [if_neg h]
    exact natDigits_no_nl k

theorem toFixed2_no_nl (x : ℚ) : nlChar ∉ toFixed2 x := by
  rw [toFixed2]
  refine not_mem_append_of (not_mem_append_of ?_ (natDigits_no_nl _)) ?_
  · by_cases h : ⌊x * 100 + 1/2⌋ < 0
    · rw [if_pos h]
      exact not_mem_cons_of (by decide) (List.not_mem_nil _)
    · rw [if_neg h]
      exact List.not_mem_nil _
  · exact not_mem_cons_of (by decide) (padTwo_no_nl _)

/-- A clean prediction's exported row body contains no newline. -/
theorem resultRowBody_no_nl (index : ℕ) (p : PredictionResult) (h : resultClean p) :
    nlChar ∉ resultRowBody index p := by
  obtain ⟨h1, h2, h3, h4, h5, h6, h7⟩ := h
  rw [resultRowBody]
  refine not_mem_append_of (natDigits_no_nl _) (not_mem_cons_of (by decide) ?_)
  refine not_mem_append_of h1 (not_mem_cons_of (by decide) ?_)
  refine not_mem_append_of h2 (not_mem_cons_of (by decide) ?_)
  refine not_mem_append_of h3 (not_mem_cons_of (by decide) ?_)
  refine not_mem_append_of h4 (not_mem_cons_of (by decide) ?_)
  refine not_mem_append_of (toFixed2_no_nl _) (not_mem_cons_of (by decide)
    (not_mem_cons_of (by decide) (not_mem_cons_of (by decide) ?_)))
  refine not_mem_append_of h5 (not_mem_cons_of (by decide)
    (not_mem_cons_of (by decide) (not_mem_cons_of (by decide) ?_)))
  refine not_mem_append_of h6 (not_mem_cons_of (by decide)
    (not_mem_cons_of (by decide) (not_mem_cons_of (by decide) ?_)))
  exact not_mem_append_of h7 (not_mem_cons_of (by decide) (List.not_mem_nil _))

theorem rowBodies_length (index : ℕ) (results : List PredictionResult) :
    (rowBodies index results).length = results.length := by
  induction results generalizing index with
  | nil => rfl
  | cons p ps ih =>
    rw [rowBodies]
    simp [ih]

/-- Splitting the concatenated newline-terminated rows on newlines yields the
row bodies followed by one empty trailing piece. -/
theorem splitOnChar_downloadRows (results : List PredictionResult) (index : ℕ)
    (h : ∀ p ∈ results, resultClean p) :
    splitOnChar nlChar (downloadRows index results)
      = rowBodies index results ++ [[]] := by
  induction results generalizing index with
  | nil => rfl
  | cons p ps ih =>
    have hp : resultClean p := h p (List.mem_cons_self p ps)
    have hps : ∀ q ∈ ps, resultClean q := fun q hq => h q (List.mem_cons_of_mem p hq)
    rw [downloadRows, resultRow, List.append_assoc, List.singleton_append,
      splitOnChar_append _ (resultRowBody_no_nl index p hp), ih _ hps, rowBodies]
    rfl

/-- C5: the exported CSV text consists of the fixed nine-column header line
followed by one newline-terminated row per result in input order — splitting
on newlines yields the header, the `N` row bodies, and the single empty piece
left by the final newline — and each row body's first comma-separated column
is the decimal rendering of its 1-based position. -/
theorem c5_download_csv (results : List PredictionResult)
    (h : ∀ p ∈ results, resultClean p) :
    splitOnChar nlChar (downloadCsv results)
      = resultsHeaderBody :: (rowBodies 0 results ++ [[]]) ∧
    (splitOnChar nlChar (downloadCsv results)).length = results.length + 2 ∧
    (∀ index p,
      (splitOnChar commaChar (resultRowBody index p)).head? = some (natDigits (index + 1))) := by
  have hsplit : splitOnChar nlChar (downloadCsv results)
      = resultsHeaderBody :: (rowBodies 0 results ++ [[]]) := by
    rw [downloadCsv, List.append_assoc, List.singleton_append,
      splitOnChar_append _ (by decide : nlChar ∉ resultsHeaderBody),
      splitOnChar_downloadRows results 0 h]
  refine ⟨hsplit, ?_, ?_⟩
  · rw [hsplit]
    simp [rowBodies_length]
  · intro index p
    rw [resultRowBody, splitOnChar_append _ (natDigits_no_comma _)]
    rfl

/-- A sample high-risk prediction used to instantiate the export contract. -/
def sampleHigh : PredictionResult :=
  { default_probability := 82/100,
    risk_level := "High Risk".toList,
    recommendation :=
      { action := "Priority collection efforts".toList, priority := "High".toList },
    borrower_summary :=
      { age := "30".toList, annual_income := "500000".toList,
        loan_amount := "150000".toList, credit_score := "650".toList } }

/-- A sample low-risk prediction used to instantiate the export contract. -/
def sampleLow : PredictionResult :=
  { default_probability := 10/100,
    risk_level := "Low Risk".toList,
    recommendation :=
      { action := "Send standard payment reminder".toList, priority := "Normal".toList },
    borrower_summary :=
      { age := "25".toList, annual_income := "300000".toList,
        loan_amount := "80000".toList, credit_score := "580".toList } }

/-- Witness for C5: for a concrete two-result batch the export splits into the
header, two row bodies and the trailing empty piece (four pieces in total,
`N + 2`), and each row starts with its 1-based index. -/
theorem c5_witness :
    splitOnChar nlChar (downloadCsv [sampleHigh, sampleLow])
      = resultsHeaderBody :: (rowBodies 0 [sampleHigh, sampleLow] ++ [[]]) ∧
    (splitOnChar nlChar (downloadCsv [sampleHigh, sampleLow])).length = 4 ∧
    (∀ index p,
      (splitOnChar commaChar (resultRowBody index p)).head? = some (natDigits (index + 1))) :=
  c5_download_csv [sampleHigh, sampleLow] (by decide)

end CreditPath
